import Mathlib

/-!
Shallow embedding of the StyleNest dashboard pipeline (`src/app.py`).

Modelling conventions used throughout:

* A dataframe cell (`Value`) is either a rational number (`num`), a missing
  value (`nan`, covering both `NaN` and `NaT`), or a non-numeric string
  (`txt`).  Strings that Python's `float()` would parse are modelled as `num`,
  so `txt` stands exactly for the values on which `astype(float)` raises.
* Floats are modelled as rationals; `NaN` results are modelled with `Option`
  (`none` = NaN), and operations that raise a Python exception return
  `Except String _`.
* Dates are modelled as abstract day numbers (rationals); after `load_data`
  the `Date` column holds `num day` for a parsed date and `nan` for `NaT`.
* `sort_values` with the default (quicksort) kind: pandas' `nargsort` is
  stable on the small argsorts the claims exercise, and for `ascending=False`
  it reverses the input before and after a stable argsort, which preserves
  the original relative order of tied elements in both directions.  Both
  directions are therefore modelled as stable insertion sorts, ties keeping
  first-occurrence order, with NaN keys placed last (`na_position='last'`).
* `groupby` uses pandas defaults: rows whose key is `NaN` are dropped
  (`dropna=True`) and group keys are emitted in sorted order (`sort=True`).
-/

deriving instance DecidableEq for Except

namespace StyleNest

/-- A single dataframe cell: numeric, missing (NaN/NaT), or non-numeric text. -/
inductive Value where
  | num (q : ℚ)
  | nan
  | txt (s : String)
deriving DecidableEq, Repr

/-- A row is an association list from column name to cell value. -/
abbrev Row := List (String × Value)

/-- A dataframe: a column list and a list of rows. -/
structure Frame where
  cols : List String
  rows : List Row
deriving DecidableEq, Repr

/-- Cell access `row[col]`; absent keys read as missing. -/
def cell (r : Row) (c : String) : Value := (r.lookup c).getD Value.nan

/-- The column `df[c]` as the list of its cells, in row order. -/
def getCol (df : Frame) (c : String) : List Value := df.rows.map (fun r => cell r c)

/-- Holds (`true`) exactly on `txt` cells, i.e. the values on which `astype(float)` raises. -/
def isTxt : Value → Bool
  | .txt _ => true
  | _ => false

/-- Numeric reading of a cell for a skip-NaN sum: NaN contributes `0`. -/
def numOf : Value → ℚ
  | .num q => q
  | _ => 0

/-- Model of `safe_sum` (app.py lines 47–51): `float(series.astype(float).sum())`
wrapped in a bare `except` returning `0.0`.  `astype(float)` raises as soon
as any single cell is non-coercible, so one `txt` cell zeroes the whole
column's sum; otherwise the sum skips NaN cells. -/
def safe_sum (col : List Value) : ℚ :=
  if col.any isTxt then 0 else (col.map numOf).sum

/-- The Metrics record returned by `compute_metrics`; `none` models a NaN
field (`conv_rate = np.nan`, or an AOV that is the mean of an empty column). -/
structure Metrics where
  revenue : ℚ
  orders : ℚ
  aov : Option ℚ
  conv_rate : Option ℚ
  rows : ℕ
deriving DecidableEq, Repr

/-- Model of `Series.mean()` on a column (used for the `Average Order Size` fallback):
raises on non-numeric text, skips NaN, and is NaN (`none`) when no numeric
value remains. -/
def meanExc (col : List Value) : Except String (Option ℚ) :=
  if col.any isTxt then .error "TypeError: could not compute mean" else
  let xs := col.filterMap (fun v => match v with | .num q => some q | _ => none)
  if xs.isEmpty then .ok none else .ok (some (xs.sum / xs.length))

/-- Model of `compute_metrics` (app.py lines 53–60).  The only operation that can
raise inside it is the `df['Average Order Size'].mean()` fallback, hence the
`Except` result. -/
def compute_metrics (df : Frame) : Except String Metrics :=
  let rev : ℚ := if "Revenue" ∈ df.cols then safe_sum (getCol df "Revenue") else 0
  let conversions : ℚ := if "Conversions" ∈ df.cols then safe_sum (getCol df "Conversions") else 0
  let orders : ℚ := if 0 < conversions then conversions else (df.rows.length : ℚ)
  let aovE : Except String (Option ℚ) :=
    if 0 < orders then .ok (some (rev / orders))
    else if "Average Order Size" ∈ df.cols then meanExc (getCol df "Average Order Size")
    else .ok (some 0)
  match aovE with
  | .error e => .error e
  | .ok aov =>
      .ok { revenue := rev, orders := orders, aov := aov,
            conv_rate := if 0 < df.rows.length ∧ "Conversions" ∈ df.cols
                         then some (conversions / (df.rows.length : ℚ)) else none,
            rows := df.rows.length }

/-- The Metrics formulas as the (amended) specification states them:
a numeric column sums to its skip-NaN total when every cell is coercible and
to `0.0` as soon as any cell is non-coercible; `orders` falls back to the row
count when the conversions sum is not positive; `aov` divides revenue by
orders when orders are positive, else falls back to the mean of
`Average Order Size` (NaN when that mean is undefined), else `0`; `conv_rate`
is defined only when the `Conversions` column is present and the row count is
positive. -/
def metricsSpec (df : Frame) : Metrics :=
  let rev : ℚ := if "Revenue" ∈ df.cols ∧ ¬ (getCol df "Revenue").any isTxt
                 then ((getCol df "Revenue").map numOf).sum else 0
  let conversions : ℚ := if "Conversions" ∈ df.cols ∧ ¬ (getCol df "Conversions").any isTxt
                 then ((getCol df "Conversions").map numOf).sum else 0
  let orders : ℚ := if 0 < conversions then conversions else (df.rows.length : ℚ)
  let aov : Option ℚ :=
    if 0 < orders then some (rev / orders)
    else if "Average Order Size" ∈ df.cols then
      (let xs := (getCol df "Average Order Size").filterMap
        (fun v => match v with | .num q => some q | _ => none)
       if xs.isEmpty then none else some (xs.sum / xs.length))
    else some 0
  { revenue := rev, orders := orders, aov := aov,
    conv_rate := if 0 < df.rows.length ∧ "Conversions" ∈ df.cols
                 then some (conversions / (df.rows.length : ℚ)) else none,
    rows := df.rows.length }

theorem safe_sum_eq (col : List Value) :
    safe_sum col = if col.any isTxt then 0 else (col.map numOf).sum := rfl

theorem getCol_of_rows_nil (df : Frame) (c : String) (h : df.rows.length = 0) :
    getCol df c = [] := by
  unfold getCol
  rw [List.length_eq_zero] at h
  simp [h]

/-- When `orders ≤ 0` the row list is empty, so the mean fallback never sees a
`txt` cell and `compute_metrics` never raises; its result is exactly the
amended-spec formulas. -/
theorem compute_metrics_never_raises (df : Frame) :
    compute_metrics df = Except.ok (metricsSpec df) := by
  unfold compute_metrics metricsSpec
  have hrev : (if "Revenue" ∈ df.cols then safe_sum (getCol df "Revenue") else 0)
      = (if "Revenue" ∈ df.cols ∧ ¬ (getCol df "Revenue").any isTxt
         then ((getCol df "Revenue").map numOf).sum else 0) := by
    by_cases hR : "Revenue" ∈ df.cols <;>
      by_cases hT : (getCol df "Revenue").any isTxt <;>
      simp [hR, hT, safe_sum]
  have hconv : (if "Conversions" ∈ df.cols then safe_sum (getCol df "Conversions") else 0)
      = (if "Conversions" ∈ df.cols ∧ ¬ (getCol df "Conversions").any isTxt
         then ((getCol df "Conversions").map numOf).sum else 0) := by
    by_cases hC : "Conversions" ∈ df.cols <;>
      by_cases hT : (getCol df "Conversions").any isTxt <;>
      simp [hC, hT, safe_sum]
  rw [hrev, hconv]
  set rev : ℚ := (if "Revenue" ∈ df.cols ∧ ¬ (getCol df "Revenue").any isTxt
         then ((getCol df "Revenue").map numOf).sum else 0) with hrevdef
  set conv : ℚ := (if "Conversions" ∈ df.cols ∧ ¬ (getCol df "Conversions").any isTxt
         then ((getCol df "Conversions").map numOf).sum else 0) with hconvdef
  set orders : ℚ := (if 0 < conv then conv else (df.rows.length : ℚ)) with hord
  by_cases hpos : 0 < orders
  · simp [hpos]
  · -- orders ≤ 0 forces an empty frame
    have hlen : df.rows.length = 0 := by
      by_contra hne
      have hlt : (0 : ℚ) < (df.rows.length : ℚ) := by
        exact_mod_cast Nat.pos_of_ne_zero hne
      apply hpos
      rw [hord]
      by_cases hc : 0 < conv <;> simp [hc, hlt]
    have hempty : getCol df "Average Order Size" = [] :=
      getCol_of_rows_nil df _ hlen
    by_cases hA : "Average Order Size" ∈ df.cols <;>
      simp [hpos, hA, hempty, meanExc]

/-! ### Sorting (model of `sort_values`) -/

variable {α : Type}

/-- Insert `x` before the first element whose key is not smaller — the
stable-insertion step for an ascending sort. -/
def insertAsc (f : α → ℚ) (x : α) : List α → List α
  | [] => [x]
  | y :: ys => if f y < f x then y :: insertAsc f x ys else x :: y :: ys

/-- Stable ascending sort by a rational key (ties keep first-occurrence
order), modelling `sort_values(...)` on the argsorts the program performs. -/
def sortAsc (f : α → ℚ) : List α → List α
  | [] => []
  | x :: xs => insertAsc f x (sortAsc f xs)

/-- Stable-insertion step for a descending sort. -/
def insertDesc (f : α → ℚ) (x : α) : List α → List α
  | [] => [x]
  | y :: ys => if f x < f y then y :: insertDesc f x ys else x :: y :: ys

/-- Stable descending sort by a rational key; `nargsort(ascending=False)`
reverses before and after a stable argsort, so tied elements keep their
first-occurrence order here as well. -/
def sortDesc (f : α → ℚ) : List α → List α
  | [] => []
  | x :: xs => insertDesc f x (sortDesc f xs)

/-- Model of `sort_values` over a possibly-NaN key (`none` = NaN): NaN rows keep
their relative order and are placed last (`na_position='last'`). -/
def sortAscOpt (f : α → Option ℚ) (l : List α) : List α :=
  sortAsc (fun a => (f a).getD 0) (l.filter (fun a => (f a).isSome))
    ++ l.filter (fun a => (f a).isNone)

/-- Descending variant of `sortAscOpt`, NaN keys still last. -/
def sortDescOpt (f : α → Option ℚ) (l : List α) : List α :=
  sortDesc (fun a => (f a).getD 0) (l.filter (fun a => (f a).isSome))
    ++ l.filter (fun a => (f a).isNone)

/-! ### Grouping (model of `groupby`) -/

/-- Order on group keys, used because `groupby(sort=True)` emits groups in
sorted key order; the dashboards' key columns are homogeneous (all-text or
all-numeric), and numbers are placed before text to keep the order total. -/
def Value.keyLT : Value → Value → Bool
  | .num a, .num b => decide (a < b)
  | .num _, .txt _ => true
  | .txt a, .txt b => decide (a < b)
  | _, _ => false

/-- Insertion step for sorting group keys. -/
def insertKey (x : Value) : List Value → List Value
  | [] => [x]
  | y :: ys => if Value.keyLT y x then y :: insertKey x ys else x :: y :: ys

/-- Sort group keys ascending (`groupby(..., sort=True)`). -/
def sortKeys : List Value → List Value
  | [] => []
  | x :: xs => insertKey x (sortKeys xs)

/-- First-occurrence deduplication, carrying the set of already-seen values. -/
def uniqueAux (seen : List Value) : List Value → List Value
  | [] => []
  | x :: xs => if x ∈ seen then uniqueAux seen xs else x :: uniqueAux (x :: seen) xs

/-- Model of `Series.unique()`: distinct values in first-occurrence order (NaN kept). -/
def uniqueFirst (l : List Value) : List Value := uniqueAux [] l

/-- The distinct group keys of `df.groupby(c)`: NaN keys are dropped
(`dropna=True`) and the remaining keys are sorted (`sort=True`). -/
def groupKeys (df : Frame) (c : String) : List Value :=
  sortKeys (uniqueFirst ((getCol df c).filter (fun v => decide (v ≠ Value.nan))))

/-- The rows of the group with key `k`. -/
def groupRows (df : Frame) (c : String) (k : Value) : List Row :=
  df.rows.filter (fun r => decide (cell r c = k))

/-- Group-wise `('col','sum')`: raises on non-numeric text, otherwise a
skip-NaN sum (an all-NaN group sums to `0`). -/
def gbSum (col : List Value) : Except String ℚ :=
  if col.any isTxt then .error "TypeError: unsupported operand type for sum"
  else .ok ((col.map numOf).sum)

/-- Group-wise `('col','count')`: the number of non-missing cells. -/
def countNonNan (col : List Value) : ℕ :=
  (col.filter (fun v => decide (v ≠ Value.nan))).length

/-- A `mapM` over `Except`, written out so the per-key aggregation loop can be
reasoned about by direct induction. -/
def mapExcept {β γ : Type} (f : β → Except String γ) : List β → Except String (List γ)
  | [] => .ok []
  | x :: xs =>
    match f x with
    | .error e => .error e
    | .ok y =>
      match mapExcept f xs with
      | .error e => .error e
      | .ok ys => .ok (y :: ys)

/-! ### Channel / rep / time-of-day aggregation tables -/

/-- One row of `df.groupby('Channel').agg(...)` (app.py lines 66–68 and
217–219): summed Revenue, summed Conversions (or non-NaN Revenue count when
`Conversions` is absent), mean Average Order Size (or mean Revenue). -/
structure ChannelRow where
  key : Value
  revenue : ℚ
  conversions : ℚ
  aov : Option ℚ
deriving DecidableEq, Repr

/-- Aggregate one channel group of `df` (see `ChannelRow`). -/
def channelAggRow (df : Frame) (k : Value) : Except String ChannelRow :=
  let rows := groupRows df "Channel" k
  match gbSum (rows.map (fun r => cell r "Revenue")) with
  | .error e => .error e
  | .ok rev =>
    match (if "Conversions" ∈ df.cols then gbSum (rows.map (fun r => cell r "Conversions"))
           else .ok (countNonNan (rows.map (fun r => cell r "Revenue")) : ℚ)) with
    | .error e => .error e
    | .ok conv =>
      match (if "Average Order Size" ∈ df.cols
             then meanExc (rows.map (fun r => cell r "Average Order Size"))
             else meanExc (rows.map (fun r => cell r "Revenue"))) with
      | .error e => .error e
      | .ok aov => .ok ⟨k, rev, conv, aov⟩

/-- Model of `df.groupby('Channel').agg(...)`: every named aggregation references the
`Revenue` column, so the whole call raises `KeyError` when `Revenue` is
absent, before any group is aggregated. -/
def channelTable (df : Frame) : Except String (List ChannelRow) :=
  if "Revenue" ∈ df.cols then mapExcept (channelAggRow df) (groupKeys df "Channel")
  else .error "KeyError: Revenue"

/-- Model of `Rev_per_Conv = Revenue / Conversions.replace(0, nan)`: NaN (`none`) when
the group's conversion sum is `0`. -/
def rpcOf (g : ChannelRow) : Option ℚ :=
  if g.conversions = 0 then none else some (g.revenue / g.conversions)

/-- One row of a `groupby(col).agg(Revenue=('Revenue','sum'),
Conversions=('Conversions','sum') | ('Revenue','count'))` aggregation, the
shape shared by the sales-rep (app.py line 81) and customer-type
(line 271) group tables. -/
structure RepRow where
  key : Value
  revenue : ℚ
  conversions : ℚ
deriving DecidableEq, Repr

/-- Aggregate one group of `df.groupby(gcol)` into a `RepRow`. -/
def sumCountAggRow (df : Frame) (gcol : String) (k : Value) : Except String RepRow :=
  let rows := groupRows df gcol k
  match gbSum (rows.map (fun r => cell r "Revenue")) with
  | .error e => .error e
  | .ok rev =>
    match (if "Conversions" ∈ df.cols then gbSum (rows.map (fun r => cell r "Conversions"))
           else .ok (countNonNan (rows.map (fun r => cell r "Revenue")) : ℚ)) with
    | .error e => .error e
    | .ok conv => .ok ⟨k, rev, conv⟩

/-- Model of `df.groupby(gcol).agg(Revenue=..., Conversions=...)`; the named
aggregations reference `Revenue`, so it raises `KeyError` when `Revenue` is
absent. -/
def sumCountTable (df : Frame) (gcol : String) : Except String (List RepRow) :=
  if "Revenue" ∈ df.cols then mapExcept (sumCountAggRow df gcol) (groupKeys df gcol)
  else .error "KeyError: Revenue"

/-- Model of `df.groupby('Sales Rep').agg(Revenue=..., Conversions=...)` (line 81). -/
def repTable (df : Frame) : Except String (List RepRow) := sumCountTable df "Sales Rep"

/-- Model of `df.groupby('Time of Day')['Revenue'].sum()` (app.py lines 76 and 244):
per-bucket revenue sums; raises `KeyError` when `Revenue` is absent. -/
def todTable (df : Frame) : Except String (List (Value × ℚ)) :=
  if "Revenue" ∈ df.cols then
    mapExcept (fun k =>
      match gbSum ((groupRows df "Time of Day" k).map (fun r => cell r "Revenue")) with
      | .error e => .error e
      | .ok s => .ok (k, s)) (groupKeys df "Time of Day")
  else .error "KeyError: Revenue"

/-- Model of `Series.quantile(p)` with the default linear interpolation; NaN (`none`)
on an empty series. -/
def quantile (p : ℚ) (xs : List ℚ) : Option ℚ :=
  if xs.isEmpty then none else
  let s := sortAsc id xs
  let pos : ℚ := p * ((xs.length : ℚ) - 1)
  let i : ℕ := (⌊pos⌋).toNat
  let lo := s.getD i 0
  let hi := s.getD (i + 1) lo
  some (lo + (pos - (i : ℚ)) * (hi - lo))

/-! ### Recommendation generator -/

/-- The advisory messages of `make_recommendations`, one constructor per
f-string template (app.py lines 72, 73, 78, 85, 88); each carries exactly the
data interpolated into the corresponding message. -/
inductive Rec where
  | investChannel (channel : Value) (rpc : Option ℚ)
  | reviewChannel (channel : Value) (rpc : Option ℚ)
  | peakWindow (tod : Value)
  | coaching (reps : List Value)
  | inventoryNote
deriving DecidableEq, Repr

/-- The six lowercased column names whose exact presence suppresses the
inventory/returns note (app.py line 87). -/
def inventoryNames : List String :=
  ["stock", "inventory", "return", "returns", "return_flag", "return_quantity"]

/-- Rule 1 of `make_recommendations` (app.py lines 65–73): best/worst channel
by `Rev_per_Conv`.  `iloc[0]` on an empty sorted table raises `IndexError`. -/
def channelRule (df : Frame) : Except String (List Rec) :=
  if "Channel" ∈ df.cols ∧ "Revenue" ∈ df.cols then
    match channelTable df with
    | .error e => .error e
    | .ok ch =>
      match (sortDescOpt rpcOf ch).head?, (sortAscOpt rpcOf ch).head? with
      | some best, some worst =>
          .ok [Rec.investChannel best.key (rpcOf best),
               Rec.reviewChannel worst.key (rpcOf worst)]
      | _, _ => .error "IndexError: single positional indexer is out-of-bounds"
  else .ok []

/-- Rule 2 of `make_recommendations` (lines 75–78): peak time-of-day window;
`tod.index[0]` on an empty grouped series raises `IndexError`. -/
def todRule (df : Frame) : Except String (List Rec) :=
  if "Time of Day" ∈ df.cols ∧ "Revenue" ∈ df.cols then
    match todTable df with
    | .error e => .error e
    | .ok t =>
      match (sortDescOpt (fun p => some p.2) t).head? with
      | some top => .ok [Rec.peakWindow top.1]
      | none => .error "IndexError: index 0 is out of bounds"
  else .ok []

/-- Rule 3 of `make_recommendations` (lines 80–85): up to three sales reps
whose summed revenue lies strictly below the 25th-percentile threshold,
ascending by revenue; no message when none falls below (an empty rep table
gives a NaN quantile, every `<` comparison is false, same outcome). -/
def coachingRule (df : Frame) : Except String (List Rec) :=
  if "Sales Rep" ∈ df.cols ∧ "Revenue" ∈ df.cols then
    match repTable df with
    | .error e => .error e
    | .ok rep =>
      match quantile (1/4) (rep.map RepRow.revenue) with
      | some q =>
        if (rep.filter (fun g => decide (g.revenue < q))).isEmpty then .ok []
        else .ok [Rec.coaching (((sortAsc RepRow.revenue
               (rep.filter (fun g => decide (g.revenue < q)))).take 3).map RepRow.key)]
      | none => .ok []
  else .ok []

/-- Rule 4 of `make_recommendations` (lines 87–88): the inventory/returns
note, emitted exactly when no column name lowercases to one of the six
listed names; it inspects column names only. -/
def inventoryRule (df : Frame) : List Rec :=
  if df.cols.any (fun c => decide (c.toLower ∈ inventoryNames)) then []
  else [Rec.inventoryNote]

/-- Model of `make_recommendations` (app.py lines 62–89): the four rules' outputs in
program order; an exception in an earlier rule propagates and later rules
(including the inventory note) never run. -/
def make_recommendations (df : Frame) : Except String (List Rec) :=
  match channelRule df with
  | .error e => .error e
  | .ok r1 =>
    match todRule df with
    | .error e => .error e
    | .ok r2 =>
      match coachingRule df with
      | .error e => .error e
      | .ok r3 => .ok (r1 ++ r2 ++ r3 ++ inventoryRule df)

/-! ### Filter stage (app.py lines 177–195) -/

/-- The parsed date of a row: `some d` for a parsed `Date` cell, `none` for
`NaT` (unparseable) — after `load_data` the `Date` column holds nothing else. -/
def dateOf (r : Row) : Option ℚ :=
  match cell r "Date" with
  | .num d => some d
  | _ => none

/-- Minimum of a list of rationals (`none` when empty). -/
def minQ : List ℚ → Option ℚ
  | [] => none
  | x :: xs => some (xs.foldl min x)

/-- Maximum of a list of rationals (`none` when empty). -/
def maxQ : List ℚ → Option ℚ
  | [] => none
  | x :: xs => some (xs.foldl max x)

/-- Model of `df[(df['Date'] >= lo) & (df['Date'] <= hi)]`: a `NaT` date fails both
comparisons, so such rows are dropped. -/
def filterDate (df : Frame) (lo hi : ℚ) : Frame :=
  { df with rows := df.rows.filter (fun r =>
      match dateOf r with
      | some d => decide (lo ≤ d) && decide (d ≤ hi)
      | none => false) }

/-- Model of `if sel: df = df[df[c].isin(sel)]`: an empty selection imposes no
constraint; `isin` matches NaN against a NaN in the selection list. -/
def filterIsin (df : Frame) (c : String) (sel : List Value) : Frame :=
  if sel.isEmpty then df
  else { df with rows := df.rows.filter (fun r => decide (cell r c ∈ sel)) }

/-- The sidebar filter pipeline with user-chosen selections: optional date
range, then channel, customer-type and business selections, applied in
program order (each `isin` only when its selection is non-empty). -/
def applyFilters (df0 : Frame) (dr : Option (ℚ × ℚ))
    (selCh selCust selBiz : List Value) : Frame :=
  let df1 := if "Date" ∈ df0.cols then
               match dr with
               | some lohi => filterDate df0 lohi.1 lohi.2
               | none => df0
             else df0
  let df2 := filterIsin df1 "Channel" selCh
  let df3 := filterIsin df2 "Customer Type" selCust
  if "Business" ∈ df3.cols then filterIsin df3 "Business" selBiz else df3

/-- Model of `Series.unique()` of a column of the frame (first-occurrence order,
NaN included), the default value of each multiselect. -/
def uniqueVals (df : Frame) (c : String) : List Value := uniqueFirst (getCol df c)

/-- The filter pipeline in its default "select all" state: date range
`[min, max]` of the parsed dates, and every multiselect holding all unique
values of its column at that point of the pipeline.  When the `Date` column
exists but contains no parsed date at all, `min()/max()` are `NaT` and the
date widget itself fails before any filtering; that unreachable branch is
modelled as a pass-through. -/
def defaultFiltered (df : Frame) : Frame :=
  let df1 := if "Date" ∈ df.cols then
               match minQ (df.rows.filterMap dateOf), maxQ (df.rows.filterMap dateOf) with
               | some lo, some hi => filterDate df lo hi
               | _, _ => df
             else df
  let df2 := filterIsin df1 "Channel"
               (if "Channel" ∈ df1.cols then uniqueVals df1 "Channel" else [])
  let df3 := filterIsin df2 "Customer Type"
               (if "Customer Type" ∈ df2.cols then uniqueVals df2 "Customer Type" else [])
  if "Business" ∈ df3.cols then filterIsin df3 "Business" (uniqueVals df3 "Business") else df3

/-! ### Dashboard sections (app.py lines 216–276)

Each section value is `ok (some data)` when the section renders its chart
or table, `ok none` when it degrades to an informational "not available"
message, and `error` when the code raises an uncaught exception. -/

/-- Channel funnel section (lines 216–226): gated on `Channel` only, but the
aggregation references `Revenue`; the table is sorted by descending revenue
and carries the `Revenue_per_Conv` column. -/
def chanSection (df : Frame) : Except String (Option (List (ChannelRow × Option ℚ))) :=
  if "Channel" ∈ df.cols then
    match channelTable df with
    | .error e => .error e
    | .ok ch => .ok (some ((sortDesc ChannelRow.revenue ch).map (fun g => (g, rpcOf g))))
  else .ok none

/-- Week bucket of an abstract day number: the label of the weekly interval
(ending on multiples of 7) containing the day. -/
def weekOf (d : ℚ) : ℤ := 7 * ⌈d / 7⌉

/-- Model of `df.set_index('Date').resample('W')['Revenue'].sum()`: `NaT` rows are
dropped, revenue is summed per weekly bucket, and empty buckets between the
first and last week appear with sum `0`. -/
def weeklyTable (df : Frame) : List (ℤ × ℚ) :=
  let pts := df.rows.filterMap (fun r => (dateOf r).map (fun d => (weekOf d, numOf (cell r "Revenue"))))
  match pts.map Prod.fst with
  | [] => []
  | w :: ws =>
    let lo := ws.foldl min w
    let hi := ws.foldl max w
    (List.range (((hi - lo) / 7).toNat + 1)).map (fun i =>
      let wk := lo + 7 * (i : ℤ)
      (wk, ((pts.filter (fun p => decide (p.1 = wk))).map Prod.snd).sum))

/-- Weekly trend section (lines 234–239): gated on `Date` only; the resample
indexes `['Revenue']`, raising `KeyError` when the column is absent, and its
sum raises on non-numeric text. -/
def weeklySection (df : Frame) : Except String (Option (List (ℤ × ℚ))) :=
  if "Date" ∈ df.cols then
    if "Revenue" ∈ df.cols then
      if (getCol df "Revenue").any isTxt then .error "TypeError: unsupported operand type for sum"
      else .ok (some (weeklyTable df))
    else .error "KeyError: Revenue"
  else .ok none

/-- Time-of-day section (lines 243–248): gated on `Time of Day` only, but the
grouped series is `['Revenue']`; sorted by descending revenue. -/
def todSection (df : Frame) : Except String (Option (List (Value × ℚ))) :=
  if "Time of Day" ∈ df.cols then
    match todTable df with
    | .error e => .error e
    | .ok t => .ok (some (sortDesc Prod.snd t))
  else .ok none

/-- Customer segmentation section (lines 270–276): gated on `Customer Type`
only, but the aggregation references `Revenue`. -/
def custSection (df : Frame) : Except String (Option (List RepRow)) :=
  if "Customer Type" ∈ df.cols then
    match sumCountTable df "Customer Type" with
    | .error e => .error e
    | .ok t => .ok (some t)
  else .ok none

/-- The per-group summed `Revenue` column of `df.groupby(c)` — the
aggregator's revenue output, one sum per group, in group order. -/
def groupRevenueSums (df : Frame) (c : String) : Except String (List ℚ) :=
  mapExcept (fun k => gbSum ((groupRows df c k).map (fun r => cell r "Revenue")))
    (groupKeys df c)

/-! ### Concrete datasets used by the claims -/

/-- A `Revenue` column with one coercible and one non-coercible value. -/
def frameC1cex : Frame :=
  ⟨["Revenue"], [[("Revenue", .num 100)], [("Revenue", .txt "abc")]]⟩

/-- The spec's end-to-end scenario: 4 rows, Channel ∈ {A, B},
Revenue = [100, 200, 50, 150], Conversions = [2, 4, 1, 3]. -/
def frameC2 : Frame :=
  ⟨["Channel", "Revenue", "Conversions"],
   [[("Channel", .txt "A"), ("Revenue", .num 100), ("Conversions", .num 2)],
    [("Channel", .txt "B"), ("Revenue", .num 200), ("Conversions", .num 4)],
    [("Channel", .txt "A"), ("Revenue", .num 50), ("Conversions", .num 1)],
    [("Channel", .txt "B"), ("Revenue", .num 150), ("Conversions", .num 3)]]⟩

/-- A dataset with `Channel`, `Date`, `Time of Day` and `Customer Type`
columns but no `Revenue` column. -/
def frameC3 : Frame :=
  ⟨["Channel", "Date", "Time of Day", "Customer Type"],
   [[("Channel", .txt "A"), ("Date", .num 0),
     ("Time of Day", .txt "Morning"), ("Customer Type", .txt "New")]]⟩

/-- A dataset whose `Date` column has one parsed date and one `NaT`. -/
def frameC4 : Frame :=
  ⟨["Date"], [[("Date", .num 0)], [("Date", .nan)]]⟩

/-- A dataset with one row whose `Channel` value is missing. -/
def frameC5 : Frame :=
  ⟨["Channel", "Revenue"],
   [[("Channel", .txt "A"), ("Revenue", .num 3)],
    [("Channel", .nan), ("Revenue", .num 5)]]⟩

/-- A zero-row dataset that still has `Channel` and `Revenue` columns. -/
def frameC6 : Frame := ⟨["Channel", "Revenue"], []⟩

/-- Four sales reps with revenues 1, 2, 3, 4 (25th-percentile threshold
7/4, so exactly rep R1 falls below it). -/
def frameC7w : Frame :=
  ⟨["Sales Rep", "Revenue"],
   [[("Sales Rep", .txt "R1"), ("Revenue", .num 1)],
    [("Sales Rep", .txt "R2"), ("Revenue", .num 2)],
    [("Sales Rep", .txt "R3"), ("Revenue", .num 3)],
    [("Sales Rep", .txt "R4"), ("Revenue", .num 4)]]⟩

/-- A one-row dataset with revenue 10 (so orders = 1 and AOV = 10). -/
def frameC8w : Frame := ⟨["Revenue"], [[("Revenue", .num 10)]]⟩

/-- A dataset with `Channel`, `Revenue` and `Date` whose dates (days 0, 1,
7, 8) all fall outside the user-narrowed range [3, 4]. -/
def frameC9 : Frame :=
  ⟨["Channel", "Revenue", "Date"],
   [[("Channel", .txt "A"), ("Revenue", .num 100), ("Date", .num 0)],
    [("Channel", .txt "B"), ("Revenue", .num 200), ("Date", .num 1)],
    [("Channel", .txt "A"), ("Revenue", .num 50), ("Date", .num 7)],
    [("Channel", .txt "B"), ("Revenue", .num 150), ("Date", .num 8)]]⟩

/-- Column names that merely contain inventory keywords as substrings —
the very fields the dashboard's integration note suggests adding. -/
def frameC10a : Frame :=
  ⟨["Stock_Quantity", "Return_Reason"],
   [[("Stock_Quantity", .num 5), ("Return_Reason", .txt "damaged")]]⟩

/-- A column whose name lowercases exactly to `return_flag`. -/
def frameC10b : Frame := ⟨["Return_Flag"], [[("Return_Flag", .num 1)]]⟩

/-! ### Infrastructure lemmas -/

theorem insertAsc_perm (f : α → ℚ) (x : α) (l : List α) :
    (insertAsc f x l).Perm (x :: l) := by
  induction l with
  | nil => simp [insertAsc]
  | cons y ys ih =>
    unfold insertAsc
    by_cases h : f y < f x
    · simp only [h, if_true]
      exact (ih.cons y).trans (List.Perm.swap x y ys)
    · simp [h]

theorem sortAsc_perm (f : α → ℚ) (l : List α) : (sortAsc f l).Perm l := by
  induction l with
  | nil => simp [sortAsc]
  | cons x xs ih =>
    exact (insertAsc_perm f x (sortAsc f xs)).trans (ih.cons x)

theorem mem_insertAsc (f : α → ℚ) (x a : α) (l : List α) :
    a ∈ insertAsc f x l ↔ a = x ∨ a ∈ l := by
  rw [(insertAsc_perm f x l).mem_iff]; simp

theorem pairwise_insertAsc (f : α → ℚ) (x : α) (l : List α)
    (h : l.Pairwise (fun a b => f a ≤ f b)) :
    (insertAsc f x l).Pairwise (fun a b => f a ≤ f b) := by
  induction l with
  | nil => simp [insertAsc]
  | cons y ys ih =>
    rw [List.pairwise_cons] at h
    unfold insertAsc
    by_cases hlt : f y < f x
    · rw [if_pos hlt]
      refine List.pairwise_cons.mpr ⟨?_, ih h.2⟩
      intro b hb
      rw [mem_insertAsc] at hb
      rcases hb with rfl | hb
      · exact le_of_lt hlt
      · exact h.1 b hb
    · rw [if_neg hlt]
      refine List.pairwise_cons.mpr ⟨?_, List.pairwise_cons.mpr h⟩
      intro b hb
      rcases List.mem_cons.mp hb with rfl | hb
      · exact le_of_not_lt hlt
      · exact le_trans (le_of_not_lt hlt) (h.1 b hb)

theorem sortAsc_pairwise (f : α → ℚ) (l : List α) :
    (sortAsc f l).Pairwise (fun a b => f a ≤ f b) := by
  induction l with
  | nil => simp [sortAsc]
  | cons x xs ih => exact pairwise_insertAsc f x (sortAsc f xs) ih

theorem insertKey_perm (x : Value) (l : List Value) :
    (insertKey x l).Perm (x :: l) := by
  induction l with
  | nil => simp [insertKey]
  | cons y ys ih =>
    unfold insertKey
    by_cases h : Value.keyLT y x
    · simp only [h, if_true]
      exact (ih.cons y).trans (List.Perm.swap x y ys)
    · simp [h]

theorem sortKeys_perm (l : List Value) : (sortKeys l).Perm l := by
  induction l with
  | nil => simp [sortKeys]
  | cons x xs ih => exact (insertKey_perm x (sortKeys xs)).trans (ih.cons x)

theorem mem_uniqueAux (a : Value) (seen l : List Value) :
    a ∈ uniqueAux seen l ↔ a ∈ l ∧ a ∉ seen := by
  induction l generalizing seen with
  | nil => simp [uniqueAux]
  | cons x xs ih =>
    unfold uniqueAux
    by_cases hx : x ∈ seen
    · simp only [hx, if_true, ih, List.mem_cons]
      constructor
      · rintro ⟨h1, h2⟩; exact ⟨Or.inr h1, h2⟩
      · rintro ⟨h1 | h1, h2⟩
        · exact absurd hx (h1 ▸ h2)
        · exact ⟨h1, h2⟩
    · simp only [hx, if_false, List.mem_cons, ih]
      constructor
      · rintro (rfl | ⟨h1, h2⟩)
        · exact ⟨Or.inl rfl, hx⟩
        · refine ⟨Or.inr h1, fun hc => h2 (Or.inr hc)⟩
      · rintro ⟨rfl | h1, h2⟩
        · exact Or.inl rfl
        · by_cases hax : a = x
          · exact Or.inl hax
          · exact Or.inr ⟨h1, fun hc => by
              rcases hc with h | h
              · exact hax h
              · exact h2 h⟩

theorem nodup_uniqueAux (seen l : List Value) : (uniqueAux seen l).Nodup := by
  induction l generalizing seen with
  | nil => simp [uniqueAux]
  | cons x xs ih =>
    unfold uniqueAux
    by_cases hx : x ∈ seen
    · simp only [hx, if_true]; exact ih seen
    · simp only [hx, if_false, List.nodup_cons]
      refine ⟨fun hc => ?_, ih (x :: seen)⟩
      exact ((mem_uniqueAux x (x :: seen) xs).mp hc).2 (List.mem_cons_self x seen)

theorem mem_uniqueFirst (a : Value) (l : List Value) :
    a ∈ uniqueFirst l ↔ a ∈ l := by
  unfold uniqueFirst
  rw [mem_uniqueAux]; simp

theorem nodup_uniqueFirst (l : List Value) : (uniqueFirst l).Nodup :=
  nodup_uniqueAux [] l

theorem groupKeys_nodup (df : Frame) (c : String) : (groupKeys df c).Nodup :=
  (sortKeys_perm _).nodup_iff.mpr (nodup_uniqueFirst _)

theorem mem_groupKeys (df : Frame) (c : String) (k : Value) :
    k ∈ groupKeys df c ↔ k ∈ getCol df c ∧ k ≠ Value.nan := by
  unfold groupKeys
  rw [(sortKeys_perm _).mem_iff, mem_uniqueFirst, List.mem_filter]
  simp

theorem mapExcept_forall₂ {β γ : Type} (f : β → Except String γ) (l : List β)
    (ys : List γ) (h : mapExcept f l = .ok ys) :
    List.Forall₂ (fun x y => f x = .ok y) l ys := by
  induction l generalizing ys with
  | nil =>
    unfold mapExcept at h
    cases h
    exact List.Forall₂.nil
  | cons x xs ih =>
    unfold mapExcept at h
    cases hx : f x with
    | error e => rw [hx] at h; exact absurd h (by simp)
    | ok y =>
      rw [hx] at h
      cases hxs : mapExcept f xs with
      | error e => rw [hxs] at h; exact absurd h (by simp)
      | ok ys' =>
        rw [hxs] at h
        cases h
        exact List.Forall₂.cons hx (ih ys' hxs)

theorem mapExcept_ok_of_forall {β γ : Type} (f : β → Except String γ) (g : β → γ)
    (l : List β) (h : ∀ x ∈ l, f x = .ok (g x)) :
    mapExcept f l = .ok (l.map g) := by
  induction l with
  | nil => rfl
  | cons x xs ih =>
    unfold mapExcept
    rw [h x (List.mem_cons_self x xs), ih (fun y hy => h y (List.mem_cons_of_mem x hy))]
    rfl

theorem foldl_min_le (xs : List ℚ) (x : ℚ) : ∀ y ∈ x :: xs, xs.foldl min x ≤ y := by
  induction xs generalizing x with
  | nil =>
    intro y hy
    rcases List.mem_cons.mp hy with rfl | hy
    · exact le_refl y
    · exact absurd hy (List.not_mem_nil y)
  | cons z zs ih =>
    intro y hy
    have hbase : zs.foldl min (min x z) ≤ min x z :=
      ih (min x z) (min x z) (List.mem_cons_self _ _)
    rcases List.mem_cons.mp hy with rfl | hy
    · exact le_trans hbase (min_le_left _ _)
    · rcases List.mem_cons.mp hy with rfl | hy
      · exact le_trans hbase (min_le_right _ _)
      · exact ih (min x z) y (List.mem_cons_of_mem _ hy)

theorem le_foldl_max (xs : List ℚ) (x : ℚ) : ∀ y ∈ x :: xs, y ≤ xs.foldl max x := by
  induction xs generalizing x with
  | nil =>
    intro y hy
    rcases List.mem_cons.mp hy with rfl | hy
    · exact le_refl y
    · exact absurd hy (List.not_mem_nil y)
  | cons z zs ih =>
    intro y hy
    have hbase : max x z ≤ zs.foldl max (max x z) :=
      ih (max x z) (max x z) (List.mem_cons_self _ _)
    rcases List.mem_cons.mp hy with rfl | hy
    · exact le_trans (le_max_left _ _) hbase
    · rcases List.mem_cons.mp hy with rfl | hy
      · exact le_trans (le_max_right _ _) hbase
      · exact ih (max x z) y (List.mem_cons_of_mem _ hy)

theorem minQ_le (l : List ℚ) (lo : ℚ) (h : minQ l = some lo) : ∀ x ∈ l, lo ≤ x := by
  cases l with
  | nil => exact absurd h (by simp [minQ])
  | cons x xs =>
    intro y hy
    unfold minQ at h
    rw [Option.some_inj] at h
    rw [← h]
    exact foldl_min_le xs x y hy

theorem le_maxQ (l : List ℚ) (hi : ℚ) (h : maxQ l = some hi) : ∀ x ∈ l, x ≤ hi := by
  cases l with
  | nil => exact absurd h (by simp [maxQ])
  | cons x xs =>
    intro y hy
    unfold maxQ at h
    rw [Option.some_inj] at h
    rw [← h]
    exact le_foldl_max xs x y hy

theorem filterIsin_cols (df : Frame) (c : String) (sel : List Value) :
    (filterIsin df c sel).cols = df.cols := by
  unfold filterIsin
  by_cases h : sel.isEmpty <;> simp [h]

theorem filterIsin_nil (df : Frame) (c : String) : filterIsin df c [] = df := rfl

theorem filterIsin_uniqueVals (df : Frame) (c : String) :
    filterIsin df c (uniqueVals df c) = df := by
  unfold filterIsin
  by_cases h : (uniqueVals df c).isEmpty
  · simp [h]
  · have hfilter : df.rows.filter (fun r => decide (cell r c ∈ uniqueVals df c)) = df.rows := by
      apply List.filter_eq_self.mpr
      intro r hr
      rw [decide_eq_true_eq]
      unfold uniqueVals
      rw [mem_uniqueFirst]
      exact List.mem_map_of_mem (fun r => cell r c) hr
    rw [if_neg h, hfilter]

/-- Sum of `if k = k0 then v else 0` over a key list containing `k0` once is `v`. -/
theorem sum_map_ite_eq (keys : List Value) (k0 : Value) (v : ℚ)
    (hnd : keys.Nodup) (hmem : k0 ∈ keys) :
    (keys.map (fun k => if k = k0 then v else 0)).sum = v := by
  induction keys with
  | nil => exact absurd hmem (List.not_mem_nil k0)
  | cons k ks ih =>
    rw [List.nodup_cons] at hnd
    rw [List.map_cons, List.sum_cons]
    by_cases hk : k = k0
    · subst hk
      have : ks.map (fun k' => if k' = k then v else 0) = ks.map (fun _ => 0) := by
        apply List.map_congr_left
        intro a ha
        rw [if_neg]
        intro hak
        exact hnd.1 (hak ▸ ha)
      rw [if_pos rfl, this]
      simp
    · rw [if_neg hk, ih hnd.2 (by
        rcases List.mem_cons.mp hmem with h | h
        · exact absurd h.symm hk
        · exact h)]
      simp

/-- Summing group-wise sums over a complete, duplicate-free, NaN-free key
list equals the sum over the rows whose key is not missing: the pandas
`groupby` partition covers exactly the non-NaN-keyed rows. -/
theorem sum_over_groups (rows : List Row) (c : String) (keys : List Value)
    (f : Row → ℚ) (hnd : keys.Nodup) (hnan : Value.nan ∉ keys)
    (hcover : ∀ r ∈ rows, cell r c ≠ Value.nan → cell r c ∈ keys) :
    (keys.map (fun k => ((rows.filter (fun r => decide (cell r c = k))).map f).sum)).sum
      = ((rows.filter (fun r => decide (cell r c ≠ Value.nan))).map f).sum := by
  induction rows with
  | nil => simp
  | cons r rows ih =>
    have ihyp := ih (fun r' hr' => hcover r' (List.mem_cons_of_mem r hr'))
    by_cases hk0 : cell r c = Value.nan
    · -- row with missing key: dropped on both sides
      have hmap : keys.map (fun k => ((List.filter (fun r' => decide (cell r' c = k)) (r :: rows)).map f).sum)
          = keys.map (fun k => ((List.filter (fun r' => decide (cell r' c = k)) rows).map f).sum) := by
        apply List.map_congr_left
        intro k hkmem
        rw [List.filter_cons, if_neg (by
          rw [decide_eq_true_eq, hk0]
          intro hkk
          exact hnan (hkk ▸ hkmem))]
      rw [hmap, ihyp, List.filter_cons, if_neg (by simp [hk0])]
    · -- row with a real key: contributes once on each side
      have hmem := hcover r (List.mem_cons_self r rows) hk0
      have hsplit : keys.map (fun k => ((List.filter (fun r' => decide (cell r' c = k)) (r :: rows)).map f).sum)
          = keys.map (fun k => (if k = cell r c then f r else 0)
              + ((List.filter (fun r' => decide (cell r' c = k)) rows).map f).sum) := by
        apply List.map_congr_left
        intro k hkmem
        rw [List.filter_cons]
        by_cases hkk : cell r c = k
        · rw [if_pos (by rw [decide_eq_true_eq]; exact hkk), if_pos hkk.symm,
            List.map_cons, List.sum_cons]
        · rw [if_neg (by rw [decide_eq_true_eq]; exact hkk),
            if_neg (fun hh => hkk hh.symm), zero_add]
      rw [hsplit, List.sum_map_add, sum_map_ite_eq keys (cell r c) (f r) hnd hmem, ihyp,
        List.filter_cons, if_pos (by simp [hk0]), List.map_cons, List.sum_cons]

theorem sumCountAggRow_key (df : Frame) (gcol : String) (k : Value) (g : RepRow)
    (h : sumCountAggRow df gcol k = .ok g) : g.key = k := by
  simp only [sumCountAggRow] at h
  split at h
  · exact absurd h (by simp)
  · split at h
    · exact absurd h (by simp)
    · injection h with h
      rw [← h]

theorem forall₂_map_key {β γ : Type} (f : γ → β) (R : β → γ → Prop)
    (hR : ∀ x y, R x y → f y = x) :
    ∀ (xs : List β) (ys : List γ), List.Forall₂ R xs ys → ys.map f = xs := by
  intro xs ys h
  induction h with
  | nil => rfl
  | cons hxy _ ih => rw [List.map_cons, hR _ _ hxy, ih]

theorem sumCountTable_keys (df : Frame) (gcol : String) (t : List RepRow)
    (h : sumCountTable df gcol = .ok t) : t.map RepRow.key = groupKeys df gcol := by
  unfold sumCountTable at h
  by_cases hR : "Revenue" ∈ df.cols
  · rw [if_pos hR] at h
    exact forall₂_map_key RepRow.key _ (fun x y hxy => sumCountAggRow_key df gcol x y hxy)
      _ _ (mapExcept_forall₂ _ _ _ h)
  · rw [if_neg hR] at h
    exact absurd h (by simp)

theorem sumCountTable_sub (df : Frame) (gcol : String) (t : List RepRow)
    (h : sumCountTable df gcol = .ok t) (x y : RepRow)
    (hx : x ∈ t) (hy : y ∈ t) (hkey : x.key = y.key) : x = y := by
  have hnd : (t.map RepRow.key).Nodup := by
    rw [sumCountTable_keys df gcol t h]
    exact groupKeys_nodup df gcol
  exact List.inj_on_of_nodup_map hnd hx hy hkey

theorem channelRule_shape (df : Frame) (l : List Rec) (h : channelRule df = .ok l) :
    ∀ x ∈ l, (∃ c p, x = Rec.investChannel c p) ∨ ∃ c p, x = Rec.reviewChannel c p := by
  unfold channelRule at h
  split at h
  · split at h
    · exact absurd h (by simp)
    · split at h
      · injection h with h
        intro x hx
        rw [← h] at hx
        rcases List.mem_cons.mp hx with rfl | hx
        · exact Or.inl ⟨_, _, rfl⟩
        · rcases List.mem_cons.mp hx with rfl | hx
          · exact Or.inr ⟨_, _, rfl⟩
          · exact absurd hx (List.not_mem_nil x)
      · exact absurd h (by simp)
  · injection h with h
    intro x hx
    rw [← h] at hx
    exact absurd hx (List.not_mem_nil x)

theorem todRule_shape (df : Frame) (l : List Rec) (h : todRule df = .ok l) :
    ∀ x ∈ l, ∃ t, x = Rec.peakWindow t := by
  unfold todRule at h
  split at h
  · split at h
    · exact absurd h (by simp)
    · split at h
      · injection h with h
        intro x hx
        rw [← h] at hx
        rcases List.mem_cons.mp hx with rfl | hx
        · exact ⟨_, rfl⟩
        · exact absurd hx (List.not_mem_nil x)
      · exact absurd h (by simp)
  · injection h with h
    intro x hx
    rw [← h] at hx
    exact absurd hx (List.not_mem_nil x)

theorem coachingRule_shape (df : Frame) (l : List Rec) (h : coachingRule df = .ok l) :
    ∀ x ∈ l, ∃ reps, x = Rec.coaching reps := by
  unfold coachingRule at h
  split at h
  · split at h
    · exact absurd h (by simp)
    · split at h
      · split at h
        · injection h with h
          intro x hx
          rw [← h] at hx
          exact absurd hx (List.not_mem_nil x)
        · injection h with h
          intro x hx
          rw [← h] at hx
          rcases List.mem_cons.mp hx with rfl | hx
          · exact ⟨_, rfl⟩
          · exact absurd hx (List.not_mem_nil x)
      · injection h with h
        intro x hx
        rw [← h] at hx
        exact absurd hx (List.not_mem_nil x)
  · injection h with h
    intro x hx
    rw [← h] at hx
    exact absurd hx (List.not_mem_nil x)

theorem inventoryRule_mem (df : Frame) :
    ∀ x ∈ inventoryRule df, x = Rec.inventoryNote := by
  unfold inventoryRule
  split
  · intro x hx
    exact absurd hx (List.not_mem_nil x)
  · intro x hx
    rcases List.mem_cons.mp hx with rfl | hx
    · rfl
    · exact absurd hx (List.not_mem_nil x)

theorem inventoryRule_note_iff (df : Frame) :
    Rec.inventoryNote ∈ inventoryRule df ↔ ∀ c ∈ df.cols, c.toLower ∉ inventoryNames := by
  unfold inventoryRule
  by_cases hp : df.cols.any (fun c => decide (c.toLower ∈ inventoryNames))
  · rw [if_pos hp]
    rw [List.any_eq_true] at hp
    obtain ⟨c, hc, hcl⟩ := hp
    rw [decide_eq_true_eq] at hcl
    simp only [List.not_mem_nil, false_iff]
    intro hall
    exact hall c hc hcl
  · rw [if_neg hp]
    rw [List.any_eq_true] at hp
    push_neg at hp
    simp only [List.mem_singleton, true_iff]
    intro c hc hcl
    exact hp c hc (by rw [decide_eq_true_eq]; exact hcl)

theorem make_recommendations_ok (df : Frame) (recs : List Rec)
    (h : make_recommendations df = .ok recs) :
    ∃ r1 r2 r3, channelRule df = .ok r1 ∧ todRule df = .ok r2 ∧ coachingRule df = .ok r3
      ∧ recs = r1 ++ r2 ++ r3 ++ inventoryRule df := by
  unfold make_recommendations at h
  cases h1 : channelRule df with
  | error e => rw [h1] at h; exact absurd h (by simp)
  | ok r1 =>
    rw [h1] at h
    cases h2 : todRule df with
    | error e => rw [h2] at h; exact absurd h (by simp)
    | ok r2 =>
      rw [h2] at h
      cases h3 : coachingRule df with
      | error e => rw [h3] at h; exact absurd h (by simp)
      | ok r3 =>
        rw [h3] at h
        injection h with h
        exact ⟨r1, r2, r3, rfl, rfl, rfl, h.symm⟩

theorem filterIsin_selectAll (df : Frame) (c : String) :
    filterIsin df c (if c ∈ df.cols then uniqueVals df c else []) = df := by
  by_cases h : c ∈ df.cols
  · rw [if_pos h]
    exact filterIsin_uniqueVals df c
  · rw [if_neg h]
    rfl

theorem guarded_selectAll (df : Frame) (c : String) :
    (if c ∈ df.cols then filterIsin df c (uniqueVals df c) else df) = df := by
  by_cases h : c ∈ df.cols
  · rw [if_pos h, filterIsin_uniqueVals]
  · rw [if_neg h]

theorem applyFilters_passthrough (df : Frame) :
    applyFilters df none [] [] [] = df := by
  unfold applyFilters
  by_cases hdate : "Date" ∈ df.cols <;> by_cases hbiz : "Business" ∈ df.cols <;>
    simp [hdate, hbiz, filterIsin_nil]

theorem coachingRule_eq_ok (df : Frame) (t : List RepRow)
    (h1 : "Sales Rep" ∈ df.cols) (h2 : "Revenue" ∈ df.cols)
    (ht : repTable df = .ok t) :
    coachingRule df =
      match quantile (1/4) (t.map RepRow.revenue) with
      | some q =>
        if (t.filter (fun g => decide (g.revenue < q))).isEmpty then .ok []
        else .ok [Rec.coaching (((sortAsc RepRow.revenue
               (t.filter (fun g => decide (g.revenue < q)))).take 3).map RepRow.key)]
      | none => .ok [] := by
  unfold coachingRule
  rw [if_pos ⟨h1, h2⟩, ht]

theorem coaching_mem_r3 (df : Frame) (r1 r2 r3 : List Rec)
    (h1 : channelRule df = .ok r1) (h2 : todRule df = .ok r2) (reps : List Value) :
    (Rec.coaching reps ∈ r1 ++ r2 ++ r3 ++ inventoryRule df ↔ Rec.coaching reps ∈ r3) := by
  simp only [List.mem_append]
  constructor
  · rintro (((hx | hx) | hx) | hx)
    · rcases channelRule_shape df r1 h1 _ hx with ⟨c, p, hc⟩ | ⟨c, p, hc⟩ <;>
        exact Rec.noConfusion hc
    · obtain ⟨t, hc⟩ := todRule_shape df r2 h2 _ hx
      exact Rec.noConfusion hc
    · exact hx
    · exact Rec.noConfusion (inventoryRule_mem df _ hx)
  · intro h
    exact Or.inl (Or.inr h)

/-! ### Claim theorems -/

/-- C1 (counterexample): the claim predicts that coercion failures contribute
zero individually (revenue 100 for a `Revenue` column `[100, "abc"]`, which is
not "entirely non-coercible"), but `safe_sum`'s `astype(float)` raises on the
single bad cell and the whole column falls back to `0.0`. -/
theorem c1_counterexample :
    compute_metrics frameC1cex
      = Except.ok { revenue := 0, orders := 2, aov := some 0, conv_rate := none, rows := 2 }
    ∧ (0 : ℚ) ≠ 100 :=
  ⟨by with_unfolding_all rfl, by with_unfolding_all decide⟩

/-- C1 (amended): for every dataset `compute_metrics` never raises and
returns exactly the spec formulas, with the coercion rule amended so that a
numeric column sums to `0.0` as soon as ANY of its values is non-coercible
(not merely when the entire column is). -/
theorem c1_metrics_formulas (df : Frame) :
    compute_metrics df = Except.ok (metricsSpec df) :=
  compute_metrics_never_raises df

/-- C2 (counterexample): on the spec's 4-row tied dataset the generator names
the SAME channel (A) in both the "invest more" and the "review/optimize"
message — not one channel in each.  Both sorts are stable on the 2-element
tie, so `iloc[0]` picks the first group (A) in both directions. -/
theorem c2_counterexample :
    ∃ c p1 p2, make_recommendations frameC2
      = Except.ok [Rec.investChannel c p1, Rec.reviewChannel c p2, Rec.inventoryNote] :=
  ⟨Value.txt "A", some 50, some 50, by with_unfolding_all rfl⟩

/-- C2 (amended): the metrics are as stated (revenue 500, orders 10, aov 50,
conv_rate 5/2) and the recommendation output is deterministic, but Channel A
is named in both the best and the worst message (rev-per-conv 50 each). -/
theorem c2_end_to_end :
    compute_metrics frameC2
      = Except.ok { revenue := 500, orders := 10, aov := some 50,
                    conv_rate := some (5/2), rows := 4 }
    ∧ make_recommendations frameC2
      = Except.ok [Rec.investChannel (Value.txt "A") (some 50),
                   Rec.reviewChannel (Value.txt "A") (some 50), Rec.inventoryNote] :=
  ⟨by with_unfolding_all rfl, by with_unfolding_all rfl⟩

/-- C3 (code bug): on a dataset with `Channel`, `Date`, `Time of Day` and
`Customer Type` columns but no `Revenue`, the channel funnel, weekly trend,
time-of-day and customer segmentation sections all raise `KeyError` instead
of degrading to an "unavailable" indicator — their gates check only the
grouping column, while the aggregations reference `Revenue`. -/
theorem c3_missing_revenue_raises :
    chanSection frameC3 = Except.error "KeyError: Revenue"
    ∧ weeklySection frameC3 = Except.error "KeyError: Revenue"
    ∧ todSection frameC3 = Except.error "KeyError: Revenue"
    ∧ custSection frameC3 = Except.error "KeyError: Revenue" :=
  ⟨by with_unfolding_all rfl, by with_unfolding_all rfl,
   by with_unfolding_all rfl, by with_unfolding_all rfl⟩

/-- C4 (counterexample): with the default full date range, the row whose
`Date` failed to parse (NaT) is dropped — NaT fails both range comparisons —
so the "select all" filtered size is 1, not the original 2. -/
theorem c4_counterexample :
    (defaultFiltered frameC4).rows.length = 1 ∧ frameC4.rows.length = 2 ∧ (1 : ℕ) ≠ 2 :=
  ⟨by with_unfolding_all rfl, by with_unfolding_all rfl, by decide⟩

/-- C4 (amended): the all-default filter stage keeps exactly the rows whose
`Date` parsed (all rows when there is no `Date` column): the select-all
categorical filters and empty selections are pass-throughs — including for
rows with missing categorical values, since `unique()` lists NaN and `isin`
matches it — but the full-range date filter still drops NaT rows. -/
theorem c4_default_filter_rows (df : Frame)
    (hd : "Date" ∈ df.cols → ∃ r ∈ df.rows, (dateOf r).isSome) :
    (defaultFiltered df).rows.length
      = (df.rows.filter (fun r => !(decide ("Date" ∈ df.cols)) || (dateOf r).isSome)).length
    ∧ (applyFilters df none [] [] []).rows.length = df.rows.length := by
  constructor
  · unfold defaultFiltered
    simp only [filterIsin_selectAll, guarded_selectAll, filterIsin_cols]
    by_cases hdate : "Date" ∈ df.cols
    · obtain ⟨r0, hr0, hs0⟩ := hd hdate
      obtain ⟨d0, hd0⟩ := Option.isSome_iff_exists.mp hs0
      have hmem : d0 ∈ df.rows.filterMap dateOf := List.mem_filterMap.mpr ⟨r0, hr0, hd0⟩
      cases hlist : df.rows.filterMap dateOf with
      | nil =>
        rw [hlist] at hmem
        exact absurd hmem (List.not_mem_nil d0)
      | cons x xs =>
        rw [if_pos hdate]
        simp only [minQ, maxQ]
        unfold filterDate
        have hcong : df.rows.filter (fun r =>
              match dateOf r with
              | some d => decide (xs.foldl min x ≤ d) && decide (d ≤ xs.foldl max x)
              | none => false)
            = df.rows.filter (fun r => !(decide ("Date" ∈ df.cols)) || (dateOf r).isSome) := by
          apply List.filter_congr
          intro r hr
          cases hdr : dateOf r with
          | none => simp [hdate]
          | some d =>
            have hdmem : d ∈ df.rows.filterMap dateOf :=
              List.mem_filterMap.mpr ⟨r, hr, hdr⟩
            rw [hlist] at hdmem
            have hlo : xs.foldl min x ≤ d := minQ_le (x :: xs) _ rfl d hdmem
            have hhi : d ≤ xs.foldl max x := le_maxQ (x :: xs) _ rfl d hdmem
            simp [hdate, hlo, hhi]
        rw [hcong]
    · rw [if_neg hdate]
      have : df.rows.filter (fun r => !(decide ("Date" ∈ df.cols)) || (dateOf r).isSome)
          = df.rows := by
        apply List.filter_eq_self.mpr
        intro r hr
        simp [hdate]
      rw [this]
  · rw [applyFilters_passthrough]

/-- C4 witness: evaluated on the two-row frame with one parsed and one NaT
date; the hypothesis (at least one parsed date) holds and the default filter
keeps exactly the one parsed-date row, while empty selections keep both. -/
theorem c4_witness :
    ("Date" ∈ frameC4.cols → ∃ r ∈ frameC4.rows, (dateOf r).isSome)
    ∧ ((defaultFiltered frameC4).rows.length
        = (frameC4.rows.filter (fun r =>
            !(decide ("Date" ∈ frameC4.cols)) || (dateOf r).isSome)).length
      ∧ (applyFilters frameC4 none [] [] []).rows.length = frameC4.rows.length) :=
  ⟨by with_unfolding_all decide,
   c4_default_filter_rows frameC4 (by with_unfolding_all decide)⟩

/-- C5 (counterexample): grouping by `Channel` drops the NaN-keyed row
(pandas `dropna=True`), so the per-group revenue sums total 3 while the
dataset's overall revenue sum is 8 — the missing-value row does NOT form its
own group. -/
theorem c5_counterexample :
    groupRevenueSums frameC5 "Channel" = Except.ok [3]
    ∧ safe_sum (getCol frameC5 "Revenue") = 8
    ∧ ¬ ([(3 : ℚ)].sum = safe_sum (getCol frameC5 "Revenue")) :=
  ⟨by with_unfolding_all rfl, by with_unfolding_all rfl, by with_unfolding_all decide⟩

/-- C5 (amended): for every dataset with a coercible `Revenue` column and
every grouping column, the per-group revenue sums never raise and total the
revenue summed over the rows whose group value is NOT missing — NaN-keyed
rows are dropped from the grouping, not given their own group. -/
theorem c5_group_partition_sums (df : Frame) (c : String)
    (h : ¬ (getCol df "Revenue").any isTxt) :
    ∃ ss, groupRevenueSums df c = Except.ok ss
      ∧ ss.sum = ((df.rows.filter (fun r => decide (cell r c ≠ Value.nan))).map
          (fun r => numOf (cell r "Revenue"))).sum := by
  have hnotxt : ∀ r ∈ df.rows, isTxt (cell r "Revenue") = false := by
    intro r hr
    have : cell r "Revenue" ∈ getCol df "Revenue" :=
      List.mem_map_of_mem (fun r => cell r "Revenue") hr
    rw [List.any_eq_true] at h
    push_neg at h
    exact Bool.not_eq_true _ ▸ h _ this
  have hok : ∀ k ∈ groupKeys df c,
      gbSum ((groupRows df c k).map (fun r => cell r "Revenue"))
        = .ok ((((groupRows df c k).map (fun r => cell r "Revenue")).map numOf).sum) := by
    intro k _
    unfold gbSum
    rw [if_neg ?_]
    rw [List.any_eq_true]
    push_neg
    intro v hv
    obtain ⟨r, hr, hrv⟩ := List.mem_map.mp hv
    have hrdf : r ∈ df.rows := List.mem_of_mem_filter hr
    rw [← hrv]
    simp [hnotxt r hrdf]
  refine ⟨(groupKeys df c).map
      (fun k => (((groupRows df c k).map (fun r => cell r "Revenue")).map numOf).sum),
    mapExcept_ok_of_forall _ _ _ hok, ?_⟩
  have hrw : (groupKeys df c).map
        (fun k => (((groupRows df c k).map (fun r => cell r "Revenue")).map numOf).sum)
      = (groupKeys df c).map
        (fun k => ((df.rows.filter (fun r => decide (cell r c = k))).map
            (fun r => numOf (cell r "Revenue"))).sum) := by
    apply List.map_congr_left
    intro k _
    rw [List.map_map]
    rfl
  rw [hrw]
  exact sum_over_groups df.rows c (groupKeys df c) (fun r => numOf (cell r "Revenue"))
    (groupKeys_nodup df c)
    (fun hmem => ((mem_groupKeys df c Value.nan).mp hmem).2 rfl)
    (fun r hr hne => (mem_groupKeys df c (cell r c)).mpr
      ⟨List.mem_map_of_mem (fun r => cell r c) hr, hne⟩)

/-- C5 witness: evaluated on the two-row frame with one NaN channel:
the group sums are `[3]`, totalling the revenue of the non-NaN-keyed rows. -/
theorem c5_witness :
    (¬ (getCol frameC5 "Revenue").any isTxt)
    ∧ ∃ ss, groupRevenueSums frameC5 "Channel" = Except.ok ss
      ∧ ss.sum = ((frameC5.rows.filter (fun r => decide (cell r "Channel" ≠ Value.nan))).map
          (fun r => numOf (cell r "Revenue"))).sum :=
  ⟨by with_unfolding_all decide,
   c5_group_partition_sums frameC5 "Channel" (by with_unfolding_all decide)⟩

/-- C6 (code bug): on a zero-row dataset that still has `Channel` and
`Revenue` columns, `make_recommendations` raises `IndexError` at
`iloc[0]` on the empty channel table, so the inventory note — which the
claim says is always emitted independent of row contents — never appears. -/
theorem c6_empty_frame_raises :
    make_recommendations frameC6
      = Except.error "IndexError: single positional indexer is out-of-bounds" := by
  with_unfolding_all rfl

/-- C7: whenever `make_recommendations` completes on a dataset with both
`Sales Rep` and `Revenue` columns, any coaching message lists at most 3
reps, each of whose summed revenue is strictly below the 25th-percentile
threshold across reps, in ascending revenue order; and when no rep falls
below the threshold, no coaching message is emitted. -/
theorem c7_coaching_threshold (df : Frame) (recs : List Rec)
    (hSR : "Sales Rep" ∈ df.cols) (hRev : "Revenue" ∈ df.cols)
    (hok : make_recommendations df = Except.ok recs) :
    (∀ reps, Rec.coaching reps ∈ recs →
       ∃ t q, repTable df = Except.ok t
         ∧ quantile (1/4) (t.map RepRow.revenue) = some q
         ∧ reps.length ≤ 3
         ∧ (∀ n ∈ reps, ∃ g ∈ t, g.key = n ∧ g.revenue < q)
         ∧ reps.Pairwise (fun a b => ∀ ga ∈ t, ∀ gb ∈ t,
             ga.key = a → gb.key = b → ga.revenue ≤ gb.revenue))
    ∧ (∀ t q, repTable df = Except.ok t
         → quantile (1/4) (t.map RepRow.revenue) = some q
         → (∀ g ∈ t, ¬ g.revenue < q)
         → ∀ reps, Rec.coaching reps ∉ recs) := by
  obtain ⟨r1, r2, r3, h1, h2, h3, hrecs⟩ := make_recommendations_ok df recs hok
  subst hrecs
  cases ht : repTable df with
  | error e =>
    unfold coachingRule at h3
    rw [if_pos ⟨hSR, hRev⟩, ht] at h3
    have h3' : (Except.error e : Except String (List Rec)) = Except.ok r3 := h3
    exact Except.noConfusion h3'
  | ok t =>
    rw [coachingRule_eq_ok df t hSR hRev ht] at h3
    cases hq : quantile (1/4) (t.map RepRow.revenue) with
    | none =>
      rw [hq] at h3
      have h3' : Except.ok ([] : List Rec) = Except.ok r3 := h3
      injection h3' with h3'
      subst h3'
      constructor
      · intro reps hmem
        rw [coaching_mem_r3 df r1 r2 [] h1 h2 reps] at hmem
        exact absurd hmem (List.not_mem_nil _)
      · intro t' q' ht' hq' _ reps hmem
        rw [coaching_mem_r3 df r1 r2 [] h1 h2 reps] at hmem
        exact absurd hmem (List.not_mem_nil _)
    | some q =>
      rw [hq] at h3
      have h3i : (if (t.filter (fun g => decide (g.revenue < q))).isEmpty
            then Except.ok ([] : List Rec)
            else Except.ok [Rec.coaching (((sortAsc RepRow.revenue
              (t.filter (fun g => decide (g.revenue < q)))).take 3).map RepRow.key)])
          = Except.ok r3 := h3
      clear h3
      by_cases hemp : (t.filter (fun g => decide (g.revenue < q))).isEmpty
      · rw [if_pos hemp] at h3i
        injection h3i with h3i
        subst h3i
        constructor
        · intro reps hmem
          rw [coaching_mem_r3 df r1 r2 [] h1 h2 reps] at hmem
          exact absurd hmem (List.not_mem_nil _)
        · intro t' q' ht' hq' _ reps hmem
          rw [coaching_mem_r3 df r1 r2 [] h1 h2 reps] at hmem
          exact absurd hmem (List.not_mem_nil _)
      · rw [if_neg hemp] at h3i
        injection h3i with h3i
        subst h3i
        constructor
        · intro reps hmem
          rw [coaching_mem_r3 df r1 r2 _ h1 h2 reps] at hmem
          have heq : Rec.coaching reps
              = Rec.coaching (((sortAsc RepRow.revenue
                  (t.filter (fun g => decide (g.revenue < q)))).take 3).map RepRow.key) :=
            List.mem_singleton.mp hmem
          injection heq with heq
          subst heq
          have hsublow : ∀ x, x ∈ (sortAsc RepRow.revenue
              (t.filter (fun g => decide (g.revenue < q)))).take 3 →
              x ∈ t ∧ x.revenue < q := by
            intro x hx
            have hx2 := List.mem_of_mem_take hx
            have hx3 := (sortAsc_perm RepRow.revenue _).mem_iff.mp hx2
            obtain ⟨hxt, hxlt⟩ := List.mem_filter.mp hx3
            rw [decide_eq_true_eq] at hxlt
            exact ⟨hxt, hxlt⟩
          refine ⟨t, q, rfl, hq, ?_, ?_, ?_⟩
          · rw [List.length_map, List.length_take]
            exact min_le_left _ _
          · intro n hn
            obtain ⟨x, hx, hxkey⟩ := List.mem_map.mp hn
            obtain ⟨hxt, hxlt⟩ := hsublow x hx
            exact ⟨x, hxt, hxkey, hxlt⟩
          · apply List.pairwise_map.mpr
            have hsorted := sortAsc_pairwise RepRow.revenue
              (t.filter (fun g => decide (g.revenue < q)))
            have htake := List.Pairwise.sublist (List.take_sublist 3 _) hsorted
            refine htake.imp_of_mem ?_
            intro a b ha hb hle
            intro ga hga gb hgb hka hkb
            have hat : a ∈ t := (hsublow a ha).1
            have hbt : b ∈ t := (hsublow b hb).1
            have hga2 : ga = a := sumCountTable_sub df "Sales Rep" t ht ga a hga hat hka
            have hgb2 : gb = b := sumCountTable_sub df "Sales Rep" t ht gb b hgb hbt hkb
            rw [hga2, hgb2]
            exact hle
        · intro t' q' ht' hq' hthresh reps hmem
          injection ht' with ht'
          subst ht'
          rw [hq] at hq'
          injection hq' with hq'
          subst hq'
          have : t.filter (fun g => decide (g.revenue < q)) = [] := by
            apply List.filter_eq_nil_iff.mpr
            intro g hg
            simp only [decide_eq_true_eq]
            exact hthresh g hg
          rw [this] at hemp
          exact hemp rfl

/-- C7 witness: four reps with revenues 1–4 give threshold 7/4; exactly R1
lies below it and the coaching message lists just R1. -/
theorem c7_witness :
    ("Sales Rep" ∈ frameC7w.cols) ∧ ("Revenue" ∈ frameC7w.cols)
    ∧ make_recommendations frameC7w
        = Except.ok [Rec.coaching [Value.txt "R1"], Rec.inventoryNote]
    ∧ ((∀ reps, Rec.coaching reps ∈ [Rec.coaching [Value.txt "R1"], Rec.inventoryNote] →
         ∃ t q, repTable frameC7w = Except.ok t
           ∧ quantile (1/4) (t.map RepRow.revenue) = some q
           ∧ reps.length ≤ 3
           ∧ (∀ n ∈ reps, ∃ g ∈ t, g.key = n ∧ g.revenue < q)
           ∧ reps.Pairwise (fun a b => ∀ ga ∈ t, ∀ gb ∈ t,
               ga.key = a → gb.key = b → ga.revenue ≤ gb.revenue))
      ∧ (∀ t q, repTable frameC7w = Except.ok t
           → quantile (1/4) (t.map RepRow.revenue) = some q
           → (∀ g ∈ t, ¬ g.revenue < q)
           → ∀ reps, Rec.coaching reps ∉ [Rec.coaching [Value.txt "R1"], Rec.inventoryNote])) :=
  ⟨by decide, by decide, by with_unfolding_all rfl,
   c7_coaching_threshold frameC7w [Rec.coaching [Value.txt "R1"], Rec.inventoryNote]
     (by decide) (by decide) (by with_unfolding_all rfl)⟩

/-- C8: whenever `compute_metrics` succeeds with positive orders, the AOV was
computed as revenue/orders (the fallback path is the `orders = 0` branch
only), and `aov * orders = revenue` holds exactly over the rationals. -/
theorem c8_aov_orders_roundtrip (df : Frame) (m : Metrics)
    (hok : compute_metrics df = Except.ok m) (hpos : 0 < m.orders) :
    ∃ a, m.aov = some a ∧ a * m.orders = m.revenue := by
  rw [compute_metrics_never_raises df] at hok
  injection hok with hok
  subst hok
  simp only [metricsSpec] at hpos ⊢
  rw [if_pos hpos]
  exact ⟨_, rfl, div_mul_cancel₀ _ (ne_of_gt hpos)⟩

/-- C8 witness: a one-row dataset with revenue 10 has orders 1 > 0 and
AOV 10 with 10 * 1 = 10. -/
theorem c8_witness :
    compute_metrics frameC8w
      = Except.ok { revenue := 10, orders := 1, aov := some 10, conv_rate := none, rows := 1 }
    ∧ (0 : ℚ) < ({ revenue := 10, orders := 1, aov := some 10,
                   conv_rate := none, rows := 1 } : Metrics).orders
    ∧ ∃ a, ({ revenue := 10, orders := 1, aov := some 10,
              conv_rate := none, rows := 1 } : Metrics).aov = some a
        ∧ a * ({ revenue := 10, orders := 1, aov := some 10,
                 conv_rate := none, rows := 1 } : Metrics).orders
          = ({ revenue := 10, orders := 1, aov := some 10,
               conv_rate := none, rows := 1 } : Metrics).revenue :=
  ⟨by with_unfolding_all rfl, by with_unfolding_all decide,
   c8_aov_orders_roundtrip frameC8w _ (by with_unfolding_all rfl)
     (by with_unfolding_all decide)⟩

/-- C9 (code bug): a 4-row dataset with `Channel`, `Revenue` and `Date`,
narrowed by a date range that excludes every row, yields a zero-row frame on
which the pipeline raises `IndexError` inside `make_recommendations`
(line 288) — before the metadata string and PDF generation are ever reached,
so no PDF document is produced. -/
theorem c9_zero_row_pipeline :
    (applyFilters frameC9 (some (3, 4)) [] [] []).rows = []
    ∧ (applyFilters frameC9 (some (3, 4)) [] [] []).cols = ["Channel", "Revenue", "Date"]
    ∧ make_recommendations (applyFilters frameC9 (some (3, 4)) [] [] [])
        = Except.error "IndexError: single positional indexer is out-of-bounds" :=
  ⟨by with_unfolding_all rfl, by with_unfolding_all rfl, by with_unfolding_all rfl⟩

/-- C10: whenever `make_recommendations` completes, the inventory/returns
note is in its output exactly when no column name LOWERCASES EXACTLY to one
of the six listed names — substring containment does not suppress it. -/
theorem c10_inventory_note_exact (df : Frame) (recs : List Rec)
    (hok : make_recommendations df = Except.ok recs) :
    Rec.inventoryNote ∈ recs ↔ ∀ c ∈ df.cols, c.toLower ∉ inventoryNames := by
  obtain ⟨r1, r2, r3, h1, h2, h3, hrecs⟩ := make_recommendations_ok df recs hok
  subst hrecs
  rw [← inventoryRule_note_iff df]
  simp only [List.mem_append]
  constructor
  · rintro (((hx | hx) | hx) | hx)
    · rcases channelRule_shape df r1 h1 _ hx with ⟨c, p, hc⟩ | ⟨c, p, hc⟩ <;>
        exact Rec.noConfusion hc
    · obtain ⟨t, hc⟩ := todRule_shape df r2 h2 _ hx
      exact Rec.noConfusion hc
    · obtain ⟨reps, hc⟩ := coachingRule_shape df r3 h3 _ hx
      exact Rec.noConfusion hc
    · exact hx
  · intro h
    exact Or.inr h

/-- C10 witness: columns `Stock_Quantity`/`Return_Reason` (substrings only)
do not suppress the note, while `Return_Flag` (exact lowercase match) does. -/
theorem c10_witness :
    (make_recommendations frameC10a = Except.ok [Rec.inventoryNote]
      ∧ (Rec.inventoryNote ∈ [Rec.inventoryNote]
          ↔ ∀ c ∈ frameC10a.cols, c.toLower ∉ inventoryNames))
    ∧ (make_recommendations frameC10b = Except.ok []
      ∧ (Rec.inventoryNote ∈ ([] : List Rec)
          ↔ ∀ c ∈ frameC10b.cols, c.toLower ∉ inventoryNames)) :=
  ⟨⟨by with_unfolding_all rfl,
    c10_inventory_note_exact frameC10a [Rec.inventoryNote] (by with_unfolding_all rfl)⟩,
   ⟨by with_unfolding_all rfl,
    c10_inventory_note_exact frameC10b [] (by with_unfolding_all rfl)⟩⟩

end StyleNest
